import Mathlib

/-!
Shallow embedding of rtcm-mqtt-streamer.py.

The byte source (a serial port) is modelled as a `List Nat` of octets; a
read of `n` bytes either returns exactly the requested bytes together with
the remaining stream, or fails when the stream is permanently exhausted
(pyserial raises on a vanished device; a successful read always returns
exactly the requested count since the port is opened without a timeout).
Fallible operations return `Except String`.
-/

namespace RtcmMqttStreamer

/-- Big-endian interpretation of a byte list, mirroring Python's
`int.from_bytes(bytes, byteorder="big")`. -/
def fromBytesBE (l : List Nat) : Nat :=
  l.foldl (fun acc b => acc * 256 + b) 0

/-- Big-endian fixed-width byte encoding of a natural number: the byte list
produced by Python's `value.to_bytes(n, byteorder="big")` when the value
fits. -/
def toBytesBE : Nat → Nat → List Nat
  | 0, _ => []
  | n + 1, v => toBytesBE n (v / 256) ++ [v % 256]

/-- Python's `value.to_bytes(n_bytes, byteorder="big")`: raises
`OverflowError` when the value does not fit in `n_bytes` bytes, otherwise
returns the zero-padded big-endian encoding. -/
def to_bytes (n_bytes value : Nat) : Except String (List Nat) :=
  if value < 256 ^ n_bytes then .ok (toBytesBE n_bytes value)
  else .error "OverflowError"

/-- Model of `serial_port.read(n)`: return exactly `n` bytes and the rest of
the stream, or fail if the stream is permanently exhausted before `n` bytes
arrive. -/
def readExact (n : Nat) (s : List Nat) : Except String (List Nat × List Nat) :=
  if n ≤ s.length then .ok (s.take n, s.drop n) else .error "stream exhausted"

/-- The payload-length decode of `read_rtcm_packet` (src line 84-86):
`int.from_bytes(reserved_and_length, byteorder="big") & 0x3FF`. -/
def decode_length (reserved_and_length : List Nat) : Nat :=
  fromBytesBE reserved_and_length &&& 0x3FF

/-- Embedding of `read_rtcm_packet` (src lines 71-94). Scans byte-by-byte
for the `0xD3` preamble, reads a 2-byte length field, masks it to its low
10 bits, reads that many payload bytes and 3 CRC bytes, and returns the
concatenated frame together with the unconsumed remainder of the stream. -/
def read_rtcm_packet : List Nat → Except String (List Nat × List Nat)
  | [] => .error "stream exhausted"
  | preamble :: rest =>
    if preamble = 0xD3 then
      match readExact 2 rest with
      | .error e => .error e
      | .ok (reserved_and_length, rest₁) =>
        match readExact (decode_length reserved_and_length) rest₁ with
        | .error e => .error e
        | .ok (message, rest₂) =>
          match readExact 3 rest₂ with
          | .error e => .error e
          | .ok (crc, rest₃) =>
            .ok (preamble :: (reserved_and_length ++ message ++ crc), rest₃)
    else
      read_rtcm_packet rest

/-- Embedding of `get_timestamp_ms_bytes` (src lines 66-68); the wall-clock
millisecond value is passed in explicitly. -/
def get_timestamp_ms_bytes (n_bytes timestamp_ms : Nat) : Except String (List Nat) :=
  to_bytes n_bytes timestamp_ms

/-- The published MQTT payload built in the streaming loop (src line 143):
`get_timestamp_ms_bytes(16) + rtcm_packet`. -/
def published_payload (timestamp_ms : Nat) (rtcm_packet : List Nat) :
    Except String (List Nat) :=
  (get_timestamp_ms_bytes 16 timestamp_ms).map (· ++ rtcm_packet)

/-- The fixed credential file names checked by `mtls_cert_path`
(src line 57). -/
def required_cert_files : List String :=
  ["device.crt", "device.key", "AmazonRootCA1.pem"]

/-- Loop body of `mtls_cert_path` (src lines 57-61): check each file in
order, raising `ArgumentTypeError` at the first missing one. The directory
contents are modelled by the predicate `fs` (does this file exist?). -/
def check_cert_files (fs : String → Bool) : List String → Except String Unit
  | [] => .ok ()
  | f :: files =>
    if fs f then check_cert_files fs files
    else .error ("No " ++ f ++ " found")

/-- Embedding of `mtls_cert_path` (src lines 54-63): validate that all three
fixed-name credential files exist in the directory, returning the directory
path on success. -/
def mtls_cert_path (fs : String → Bool) (str_path : String) : Except String String :=
  match check_cert_files fs required_cert_files with
  | .ok _ => .ok str_path
  | .error e => .error e

/-- Observable side-effecting steps of startup (src lines 121-139),
in program order. -/
inductive StartupEvent
  | serialOpen
  | mqttConnect
  deriving DecidableEq, Repr

/-- Startup sequence of `__main__` (src lines 121-139): argument parsing
runs `mtls_cert_path` first; only if it succeeds are the serial port opened
and the MQTT connection established. -/
def startup (fs : String → Bool) (cert_path : String) :
    Except String (List StartupEvent) :=
  match mtls_cert_path fs cert_path with
  | .error e => .error e
  | .ok _ => .ok [StartupEvent.serialOpen, StartupEvent.mqttConnect]

/-- Observable steps of the shutdown (`finally`) block, in program order. -/
inductive DrainEvent
  | mqttDisconnect
  | serialClose
  deriving DecidableEq, Repr

/-- Embedding of the `finally` block (src lines 153-157):
`mqtt_client.disconnect()` then `ser.close()`, with no exception handling
around either call. Each call's possible failure is a boolean input; the
result is the list of calls that were attempted, in order, plus the
uncaught exception, if any, that propagates out of the block (a raise in
the first call skips the second call entirely). -/
def draining (disconnect_fails close_fails : Bool) :
    List DrainEvent × Option String :=
  if disconnect_fails then ([DrainEvent.mqttDisconnect], some "disconnect failed")
  else if close_fails then
    ([DrainEvent.mqttDisconnect, DrainEvent.serialClose], some "close failed")
  else ([DrainEvent.mqttDisconnect, DrainEvent.serialClose], none)

/-- Observable events of the streaming loop: a frame leaving the reader,
and a payload handed to `mqtt_client.publish`. -/
inductive LoopEvent
  | framed (frame : List Nat)
  | published (payload : List Nat)
  deriving DecidableEq, Repr

/-- Embedding of the streaming loop (src lines 141-145): repeatedly frame a
packet from the stream, build the timestamped payload, and publish it.
`tsFn i` is the wall-clock millisecond reading at iteration `i`; `fuel`
bounds the number of iterations (the real loop is infinite and, on our
finite stream model, stops when a read or encode raises). -/
def stream_loop (tsFn : Nat → Nat) : Nat → Nat → List Nat → List LoopEvent
  | 0, _, _ => []
  | fuel + 1, i, s =>
    match read_rtcm_packet s with
    | .error _ => []
    | .ok (rtcm_packet, rest) =>
      match published_payload (tsFn i) rtcm_packet with
      | .error _ => [LoopEvent.framed rtcm_packet]
      | .ok payload =>
        LoopEvent.framed rtcm_packet :: LoopEvent.published payload ::
          stream_loop tsFn fuel (i + 1) rest

/-- Projection of the framing events of a loop trace, in order. -/
def framedOf : LoopEvent → Option (List Nat)
  | LoopEvent.framed f => some f
  | _ => none

/-- Projection of the published payloads of a loop trace, in order. -/
def publishedOf : LoopEvent → Option (List Nat)
  | LoopEvent.published p => some p
  | _ => none

/-- Two-digit decimal rendering of a number in [10,99], as produced by
Python's format spec `{n:02}` on that range. -/
def two_digit (r : Nat) : String :=
  String.mk [Char.ofNat (48 + r / 10), Char.ofNat (48 + r % 10)]

/-- The generated MQTT client identifier (src line 128):
`f"rtcm_mqtt_streamer{random.randint(10,99):02}"`, as a function of the
random draw `r` from [10, 99]. -/
def client_id (r : Nat) : String :=
  "rtcm_mqtt_streamer" ++ two_digit r

/-! ### Helper lemmas -/

theorem readExact_exact (l r : List Nat) {n : Nat} (h : l.length = n) :
    readExact n (l ++ r) = .ok (l, r) := by
  subst h
  simp [readExact, List.take_left, List.drop_left, Nat.le_add_right]

theorem readExact_ok {n : Nat} {s a r : List Nat}
    (h : readExact n s = .ok (a, r)) : a.length = n ∧ s = a ++ r := by
  unfold readExact at h
  split at h
  · rename_i hn
    injection h with h
    injection h with h₁ h₂
    subst h₁; subst h₂
    exact ⟨List.length_take_of_le hn, (List.take_append_drop n s).symm⟩
  · exact absurd h (by simp)

theorem fromBytesBE_pair (b1 b2 : Nat) : fromBytesBE [b1, b2] = b1 * 256 + b2 := by
  simp [fromBytesBE, List.foldl]

theorem decode_length_eq_mod (b1 b2 : Nat) :
    decode_length [b1, b2] = (b1 * 256 + b2) % 1024 := by
  have h10 : (0x3FF : Nat) = 2 ^ 10 - 1 := by norm_num
  rw [decode_length, fromBytesBE_pair, h10, Nat.and_pow_two_sub_one_eq_mod]

theorem decode_length_le (l : List Nat) : decode_length l ≤ 1023 :=
  Nat.and_le_right

theorem length_toBytesBE (n v : Nat) : (toBytesBE n v).length = n := by
  induction n generalizing v with
  | zero => rfl
  | succ n ih => simp [toBytesBE, ih]

theorem fromBytesBE_append_byte (l : List Nat) (b : Nat) :
    fromBytesBE (l ++ [b]) = fromBytesBE l * 256 + b := by
  simp [fromBytesBE, List.foldl_append]

theorem fromBytesBE_toBytesBE (n v : Nat) :
    fromBytesBE (toBytesBE n v) = v % 256 ^ n := by
  induction n generalizing v with
  | zero => simp [toBytesBE, fromBytesBE, Nat.mod_one]
  | succ n ih =>
    rw [toBytesBE, fromBytesBE_append_byte, ih, pow_succ, mul_comm (256 ^ n) 256,
      Nat.mod_mul]
    ring

theorem read_skip_garbage (g s : List Nat) (hg : ∀ b ∈ g, b ≠ 0xD3) :
    read_rtcm_packet (g ++ s) = read_rtcm_packet s := by
  induction g with
  | nil => rfl
  | cons b g ih =>
    have hb : b ≠ 0xD3 := hg b (List.mem_cons_self b g)
    rw [List.cons_append, read_rtcm_packet, if_neg hb]
    exact ih fun x hx => hg x (List.mem_cons_of_mem b hx)

theorem read_rtcm_packet_frame (b1 b2 : Nat) (payload crc rest : List Nat)
    (hp : payload.length = decode_length [b1, b2]) (hc : crc.length = 3) :
    read_rtcm_packet (0xD3 :: b1 :: b2 :: (payload ++ crc ++ rest))
      = .ok (0xD3 :: b1 :: b2 :: (payload ++ crc), rest) := by
  rw [read_rtcm_packet, if_pos rfl]
  have h2 : readExact 2 (b1 :: b2 :: (payload ++ crc ++ rest))
      = .ok ([b1, b2], payload ++ crc ++ rest) := readExact_exact [b1, b2] _ rfl
  rw [h2]
  dsimp only
  have hmsg : readExact (decode_length [b1, b2]) (payload ++ crc ++ rest)
      = .ok (payload, crc ++ rest) := by
    rw [List.append_assoc]
    exact readExact_exact payload (crc ++ rest) hp
  rw [hmsg]
  dsimp only
  have hcrc : readExact 3 (crc ++ rest) = .ok (crc, rest) :=
    readExact_exact crc rest hc
  rw [hcrc]
  simp

theorem read_rtcm_packet_shape (s f r : List Nat)
    (h : read_rtcm_packet s = .ok (f, r)) :
    ∃ b1 b2 msg crc, f = 0xD3 :: b1 :: b2 :: (msg ++ crc)
      ∧ msg.length = decode_length [b1, b2] ∧ crc.length = 3 := by
  induction s with
  | nil => exact absurd h (by simp [read_rtcm_packet])
  | cons b rest ih =>
    rw [read_rtcm_packet] at h
    by_cases hb : b = 0xD3
    · rw [if_pos hb] at h
      subst hb
      cases h2 : readExact 2 rest with
      | error e => rw [h2] at h; exact absurd h (by simp)
      | ok p =>
        obtain ⟨rl, rest₁⟩ := p
        rw [h2] at h
        obtain ⟨hrl, -⟩ := readExact_ok h2
        obtain ⟨b1, b2, hrl2⟩ := List.length_eq_two.mp hrl
        subst hrl2
        dsimp only at h
        cases hm : readExact (decode_length [b1, b2]) rest₁ with
        | error e => rw [hm] at h; exact absurd h (by simp)
        | ok p =>
          obtain ⟨msg, rest₂⟩ := p
          rw [hm] at h
          obtain ⟨hmsg, -⟩ := readExact_ok hm
          dsimp only at h
          cases hcr : readExact 3 rest₂ with
          | error e => rw [hcr] at h; exact absurd h (by simp)
          | ok p =>
            obtain ⟨crc, rest₃⟩ := p
            rw [hcr] at h
            obtain ⟨hcrc, -⟩ := readExact_ok hcr
            injection h with h
            injection h with h₁ h₂
            refine ⟨b1, b2, msg, crc, ?_, hmsg, hcrc⟩
            rw [← h₁]
            simp
    · rw [if_neg hb] at h
      exact ih h

theorem read_eos_error (t : List Nat)
    (h : ∀ b1 b2 u, t = b1 :: b2 :: u → u.length < 3 + decode_length [b1, b2]) :
    read_rtcm_packet (0xD3 :: t) = .error "stream exhausted" := by
  rw [read_rtcm_packet, if_pos rfl]
  match t with
  | [] => rfl
  | [b1] => rfl
  | b1 :: b2 :: u =>
    rw [show readExact 2 (b1 :: b2 :: u) = .ok ([b1, b2], u) from
      readExact_exact [b1, b2] u rfl]
    dsimp only
    have hu : u.length < 3 + decode_length [b1, b2] := h b1 b2 u rfl
    by_cases hL : decode_length [b1, b2] ≤ u.length
    · rw [readExact, if_pos hL]
      dsimp only
      rw [readExact, if_neg (by simp [List.length_drop]; omega)]
    · rw [readExact, if_neg hL]

/-! ### Claim theorems -/

/-- C1: every valid constructed frame (preamble `0xD3`, a 2-byte length
field whose low 10 bits encode `L`, `L` payload bytes, 3 trailing bytes)
fed to `read_rtcm_packet` is emitted byte-for-byte, exactly the `6 + L`
frame bytes are consumed (the following stream is returned untouched), and
the frame length is `6 + L`, so `L = 0` gives a 6-byte frame and
`L = 1023` a 1029-byte frame. -/
theorem frame_roundtrip_consumption (b1 b2 : Nat) (payload crc rest : List Nat)
    (hp : payload.length = decode_length [b1, b2]) (hc : crc.length = 3) :
    read_rtcm_packet (0xD3 :: b1 :: b2 :: (payload ++ crc ++ rest))
        = .ok (0xD3 :: b1 :: b2 :: (payload ++ crc), rest)
      ∧ (0xD3 :: b1 :: b2 :: (payload ++ crc)).length = 6 + decode_length [b1, b2]
      ∧ (decode_length [b1, b2] = 0 →
          (0xD3 :: b1 :: b2 :: (payload ++ crc)).length = 6)
      ∧ (decode_length [b1, b2] = 1023 →
          (0xD3 :: b1 :: b2 :: (payload ++ crc)).length = 1029) := by
  have hlen : (0xD3 :: b1 :: b2 :: (payload ++ crc)).length
      = 6 + decode_length [b1, b2] := by
    simp [List.length_append, hp, hc]
    omega
  exact ⟨read_rtcm_packet_frame b1 b2 payload crc rest hp hc, hlen,
    fun h0 => by rw [hlen, h0], fun h0 => by rw [hlen, h0]⟩

/-- Witness for C1 at `b1 = 0`, `b2 = 2`, payload `[9, 9]`,
check bytes `[1, 2, 3]`, trailing stream `[0xEE]`. -/
theorem frame_roundtrip_consumption_witness :
    read_rtcm_packet (0xD3 :: 0 :: 2 :: ([9, 9] ++ [1, 2, 3] ++ [0xEE]))
        = .ok (0xD3 :: 0 :: 2 :: ([9, 9] ++ [1, 2, 3]), [0xEE])
      ∧ (0xD3 :: 0 :: 2 :: ([9, 9] ++ [1, 2, 3])).length = 6 + decode_length [0, 2]
      ∧ (decode_length [0, 2] = 0 →
          (0xD3 :: 0 :: 2 :: ([9, 9] ++ [1, 2, 3])).length = 6)
      ∧ (decode_length [0, 2] = 1023 →
          (0xD3 :: 0 :: 2 :: ([9, 9] ++ [1, 2, 3])).length = 1029) :=
  frame_roundtrip_consumption 0 2 [9, 9] [1, 2, 3] [0xEE] (by rfl) (by rfl)

/-- C2: the payload length is the big-endian value of the 2 bytes after
the preamble with the top 6 bits masked off, i.e. the low 10 bits, always
at most 1023; and the stream `D3 00 03 01 02 03 AA BB CC` decodes a length
field of 3 and yields exactly the one 9-byte frame, consuming the whole
stream. -/
theorem length_field_decode (b1 b2 : Nat) :
    decode_length [b1, b2] = (b1 * 256 + b2) % 1024
      ∧ decode_length [b1, b2] ≤ 1023
      ∧ decode_length [0x00, 0x03] = 3
      ∧ read_rtcm_packet [0xD3, 0x00, 0x03, 0x01, 0x02, 0x03, 0xAA, 0xBB, 0xCC]
          = .ok ([0xD3, 0x00, 0x03, 0x01, 0x02, 0x03, 0xAA, 0xBB, 0xCC], []) :=
  ⟨decode_length_eq_mod b1 b2, decode_length_le [b1, b2], rfl, rfl⟩

/-- C3: any prefix of non-`0xD3` garbage bytes in front of the stream is
silently discarded without affecting the result of `read_rtcm_packet`; in
particular `FF FF D3 00 00 AA BB CC` yields exactly the 6-byte frame
`D3 00 00 AA BB CC`. -/
theorem resync_garbage_prefix (g s : List Nat) (hg : ∀ b ∈ g, b ≠ 0xD3) :
    read_rtcm_packet (g ++ s) = read_rtcm_packet s
      ∧ read_rtcm_packet [0xFF, 0xFF, 0xD3, 0x00, 0x00, 0xAA, 0xBB, 0xCC]
          = .ok ([0xD3, 0x00, 0x00, 0xAA, 0xBB, 0xCC], []) :=
  ⟨read_skip_garbage g s hg, rfl⟩

/-- Witness for C3 with garbage prefix `[0xFF, 0x01]` in front of a
minimal frame. -/
theorem resync_garbage_prefix_witness :
    read_rtcm_packet ([0xFF, 0x01] ++ [0xD3, 0x00, 0x00, 0xAA, 0xBB, 0xCC])
        = read_rtcm_packet [0xD3, 0x00, 0x00, 0xAA, 0xBB, 0xCC]
      ∧ read_rtcm_packet [0xFF, 0xFF, 0xD3, 0x00, 0x00, 0xAA, 0xBB, 0xCC]
          = .ok ([0xD3, 0x00, 0x00, 0xAA, 0xBB, 0xCC], []) :=
  resync_garbage_prefix [0xFF, 0x01] _ (by decide)

/-- C4: if the stream ends permanently after the preamble but before the
full length field, payload and check value have been read, the reader
propagates a stream-exhausted failure and emits no frame; and whenever it
does emit a frame, that frame is never shorter than 6 plus its decoded
payload length. -/
theorem eos_mid_frame_failure (t : List Nat)
    (h : ∀ b1 b2 u, t = b1 :: b2 :: u → u.length < 3 + decode_length [b1, b2]) :
    read_rtcm_packet (0xD3 :: t) = .error "stream exhausted"
      ∧ ∀ s f r, read_rtcm_packet s = .ok (f, r) →
          f.length = 6 + decode_length (List.take 2 (List.drop 1 f)) := by
  refine ⟨read_eos_error t h, fun s f r hok => ?_⟩
  obtain ⟨b1, b2, msg, crc, hf, hmsg, hcrc⟩ := read_rtcm_packet_shape s f r hok
  subst hf
  simp [List.length_append, hmsg, hcrc]
  omega

/-- Witness for C4: the stream ends after the preamble, the length field
`00 05` (decoded length 5) and a single payload byte. -/
theorem eos_mid_frame_failure_witness :
    read_rtcm_packet (0xD3 :: [0x00, 0x05, 0x01]) = .error "stream exhausted"
      ∧ ∀ s f r, read_rtcm_packet s = .ok (f, r) →
          f.length = 6 + decode_length (List.take 2 (List.drop 1 f)) :=
  eos_mid_frame_failure [0x00, 0x05, 0x01] (by
    intro b1 b2 u hu
    injection hu with h1 hu
    injection hu with h2 hu
    subst h1
    subst h2
    subst hu
    decide)

/-- C5: for every capture timestamp that fits the configured width, the
published payload is exactly the 16-byte zero-padded big-endian encoding
of the timestamp (its length independent of the timestamp's magnitude,
and decoding it back recovers the timestamp) concatenated directly with
the raw frame bytes. -/
theorem published_payload_format (ts : Nat) (frame : List Nat)
    (h : ts < 256 ^ 16) :
    get_timestamp_ms_bytes 16 ts = .ok (toBytesBE 16 ts)
      ∧ (toBytesBE 16 ts).length = 16
      ∧ fromBytesBE (toBytesBE 16 ts) = ts
      ∧ published_payload ts frame = .ok (toBytesBE 16 ts ++ frame) := by
  have hok : get_timestamp_ms_bytes 16 ts = .ok (toBytesBE 16 ts) := by
    rw [get_timestamp_ms_bytes, to_bytes, if_pos h]
  refine ⟨hok, length_toBytesBE 16 ts, ?_, ?_⟩
  · rw [fromBytesBE_toBytesBE]
    exact Nat.mod_eq_of_lt h
  · rw [published_payload, hok]
    rfl

/-- Witness for C5 at a realistic millisecond timestamp and a minimal
frame. -/
theorem published_payload_format_witness :
    get_timestamp_ms_bytes 16 1699999999999 = .ok (toBytesBE 16 1699999999999)
      ∧ (toBytesBE 16 1699999999999).length = 16
      ∧ fromBytesBE (toBytesBE 16 1699999999999) = 1699999999999
      ∧ published_payload 1699999999999 [0xD3, 0x00, 0x00, 0xAA, 0xBB, 0xCC]
          = .ok (toBytesBE 16 1699999999999 ++ [0xD3, 0x00, 0x00, 0xAA, 0xBB, 0xCC]) :=
  published_payload_format 1699999999999 [0xD3, 0x00, 0x00, 0xAA, 0xBB, 0xCC]
    (by norm_num)

/-- C6: the credential-directory check succeeds exactly when all three
fixed-name credential files are present, and when any one is absent the
startup sequence fails with a configuration error before any serial-open
or MQTT-connect step is reached (an error result carries no startup
events). -/
theorem cert_files_all_required (fs : String → Bool) (p : String) :
    (mtls_cert_path fs p = .ok p ↔
        (fs "device.crt" = true ∧ fs "device.key" = true
          ∧ fs "AmazonRootCA1.pem" = true))
      ∧ ((fs "device.crt" = false ∨ fs "device.key" = false
          ∨ fs "AmazonRootCA1.pem" = false) →
          ∃ e, startup fs p = .error e) := by
  cases h1 : fs "device.crt" <;> cases h2 : fs "device.key" <;>
    cases h3 : fs "AmazonRootCA1.pem" <;>
    simp [mtls_cert_path, check_cert_files, required_cert_files, startup,
      h1, h2, h3]

/-- Witness for C6 at a directory holding only `device.crt`: startup
fails before any connection event. -/
theorem cert_files_all_required_witness :
    ∃ e, startup (fun f => f == "device.crt") "certs" = .error e :=
  (cert_files_all_required (fun f => f == "device.crt") "certs").2
    (Or.inr (Or.inl (by decide)))

/-- C7 counterexample: when the transport disconnect raises, the
byte-source close is never attempted and the exception propagates out of
the shutdown block, contradicting the claim that both attempts are
independent and that failures are never re-raised. -/
theorem draining_counterexample :
    DrainEvent.serialClose ∉ (draining true false).1
      ∧ (draining true false).2 ≠ none := by
  decide

/-- C7 amended: on exit from the streaming loop the supervisor attempts
the transport disconnect and then the byte-source close, in that order,
with no exception handling of its own: when disconnect succeeds the close
is attempted (and when both succeed nothing is raised), but a disconnect
failure skips the close and propagates, and a close failure propagates as
well. -/
theorem draining_sequential (cf : Bool) :
    draining false false
        = ([DrainEvent.mqttDisconnect, DrainEvent.serialClose], none)
      ∧ (draining false cf).1
          = [DrainEvent.mqttDisconnect, DrainEvent.serialClose]
      ∧ draining true cf
          = ([DrainEvent.mqttDisconnect], some "disconnect failed")
      ∧ draining false true
          = ([DrainEvent.mqttDisconnect, DrainEvent.serialClose],
              some "close failed") := by
  cases cf <;> decide

/-- C8: in every streaming-loop trace, the payloads handed to the
transport's publish call, stripped of their 16-byte timestamp prefix,
are exactly the frames produced by the reader, in the same order: no
reordering occurs between framing and publishing. -/
theorem frames_published_in_order (tsFn : Nat → Nat) (fuel i : Nat)
    (s : List Nat) (h : ∀ j, tsFn j < 256 ^ 16) :
    ((stream_loop tsFn fuel i s).filterMap publishedOf).map (List.drop 16)
      = (stream_loop tsFn fuel i s).filterMap framedOf := by
  induction fuel generalizing i s with
  | zero => rfl
  | succ fuel ih =>
    rw [stream_loop]
    cases hr : read_rtcm_packet s with
    | error e => rfl
    | ok p =>
      obtain ⟨f, rest⟩ := p
      dsimp only
      have hpub : published_payload (tsFn i) f
          = .ok (toBytesBE 16 (tsFn i) ++ f) := by
        rw [published_payload, get_timestamp_ms_bytes, to_bytes, if_pos (h i)]
        rfl
      rw [hpub]
      dsimp only
      simp only [List.filterMap_cons, publishedOf, framedOf, List.map_cons]
      rw [List.drop_left' (length_toBytesBE 16 (tsFn i)), ih (i + 1) rest]

/-- Witness for C8 on a stream holding two consecutive frames, with a
constant clock. -/
theorem frames_published_in_order_witness :
    ((stream_loop (fun _ => 0) 2 0
          [0xD3, 0x00, 0x01, 0x07, 0x01, 0x02, 0x03,
            0xD3, 0x00, 0x00, 0x04, 0x05, 0x06]).filterMap
        publishedOf).map (List.drop 16)
      = (stream_loop (fun _ => 0) 2 0
          [0xD3, 0x00, 0x01, 0x07, 0x01, 0x02, 0x03,
            0xD3, 0x00, 0x00, 0x04, 0x05, 0x06]).filterMap framedOf :=
  frames_published_in_order (fun _ => 0) 2 0
    [0xD3, 0x00, 0x01, 0x07, 0x01, 0x02, 0x03,
      0xD3, 0x00, 0x00, 0x04, 0x05, 0x06] (fun _ => by norm_num)

theorem digit_char_inj : ∀ a < 10, ∀ b < 10,
    Char.ofNat (48 + a) = Char.ofNat (48 + b) → a = b := by
  decide

theorem two_digit_inj {a b : Nat} (ha : a < 100) (hb : b < 100)
    (h : two_digit a = two_digit b) : a = b := by
  have hd : [Char.ofNat (48 + a / 10), Char.ofNat (48 + a % 10)]
      = [Char.ofNat (48 + b / 10), Char.ofNat (48 + b % 10)] :=
    congrArg String.data h
  injection hd with h1 hd
  injection hd with h2 hd
  have e1 : a / 10 = b / 10 :=
    digit_char_inj (a / 10) (by omega) (b / 10) (by omega) h1
  have e2 : a % 10 = b % 10 :=
    digit_char_inj (a % 10) (by omega) (b % 10) (by omega) h2
  omega

/-- C9 counterexample: two concurrently-connected instances whose random
draws both come out as 42 — a possible outcome of `random.randint(10,99)`
in each process — get identical client identifiers, so the identifiers are
not guaranteed distinct. -/
theorem client_id_not_unique :
    ¬ ∀ r₁ r₂ : Nat, 10 ≤ r₁ ∧ r₁ ≤ 99 → 10 ≤ r₂ ∧ r₂ ≤ 99 →
        client_id r₁ ≠ client_id r₂ :=
  fun h => h 42 42 (by decide) (by decide) rfl

/-- C9 amended: the generated client identifiers of two instances are
distinct exactly when their random draws are distinct; since the draw
ranges over only the 90 values 10-99, no uniqueness across concurrently
connected instances is guaranteed. -/
theorem client_id_distinct_iff_draw (r₁ r₂ : Nat)
    (h₁ : r₁ < 100) (h₂ : r₂ < 100) :
    client_id r₁ = client_id r₂ ↔ r₁ = r₂ := by
  constructor
  · intro h
    have hd := congrArg String.data h
    simp only [client_id, String.data_append] at hd
    exact two_digit_inj h₁ h₂ (congrArg String.mk (List.append_cancel_left hd))
  · intro h
    rw [h]

/-- Witness for the amended C9 at the extreme draws 10 and 99. -/
theorem client_id_distinct_iff_draw_witness :
    client_id 10 = client_id 99 ↔ 10 = 99 :=
  client_id_distinct_iff_draw 10 99 (by decide) (by decide)

/-- C10: every frame returned by `read_rtcm_packet` (each read having
returned exactly the requested bytes) starts with the preamble byte
`0xD3` and has total length 6 plus the decoded low-10-bit value of its
length field, hence between 6 and 1029 bytes. -/
theorem frame_invariant (s f r : List Nat)
    (h : read_rtcm_packet s = .ok (f, r)) :
    f.head? = some 0xD3
      ∧ f.length = 6 + decode_length (List.take 2 (List.drop 1 f))
      ∧ 6 ≤ f.length ∧ f.length ≤ 1029 := by
  obtain ⟨b1, b2, msg, crc, hf, hmsg, hcrc⟩ := read_rtcm_packet_shape s f r h
  subst hf
  have htake : List.take 2 (List.drop 1 (0xD3 :: b1 :: b2 :: (msg ++ crc)))
      = [b1, b2] := rfl
  have hle : decode_length [b1, b2] ≤ 1023 := decode_length_le [b1, b2]
  have hlen : (0xD3 :: b1 :: b2 :: (msg ++ crc)).length
      = 6 + decode_length [b1, b2] := by
    simp [List.length_append, hmsg, hcrc]
    omega
  exact ⟨rfl, by rw [htake]; exact hlen, by rw [hlen]; omega,
    by rw [hlen]; omega⟩

/-- Witness for C10 on the 9-byte single-frame scenario stream. -/
theorem frame_invariant_witness :
    ([0xD3, 0x00, 0x03, 0x01, 0x02, 0x03, 0xAA, 0xBB, 0xCC] : List Nat).head?
        = some 0xD3
      ∧ ([0xD3, 0x00, 0x03, 0x01, 0x02, 0x03, 0xAA, 0xBB, 0xCC] : List Nat).length
          = 6 + decode_length (List.take 2 (List.drop 1
              [0xD3, 0x00, 0x03, 0x01, 0x02, 0x03, 0xAA, 0xBB, 0xCC]))
      ∧ 6 ≤ ([0xD3, 0x00, 0x03, 0x01, 0x02, 0x03, 0xAA, 0xBB, 0xCC] : List Nat).length
      ∧ ([0xD3, 0x00, 0x03, 0x01, 0x02, 0x03, 0xAA, 0xBB, 0xCC] : List Nat).length ≤ 1029 :=
  frame_invariant [0xD3, 0x00, 0x03, 0x01, 0x02, 0x03, 0xAA, 0xBB, 0xCC]
    [0xD3, 0x00, 0x03, 0x01, 0x02, 0x03, 0xAA, 0xBB, 0xCC] [] (by rfl)

end RtcmMqttStreamer
